import Mathlib

/-!
Verification of the mintaborate run-orchestrator core against its
natural-language specification.

The development shallowly embeds the TypeScript sources:

* `src/lib/execution/agent-runner.ts` (retrieval index: `tokenize`,
  `buildCorpusChunks`, `retrieveTopChunksWithScores`);
* `src/lib/evaluation/judge.ts` (`applyGuardrails`, `judgeTaskAttempt`);
* `src/lib/evaluation/rubric.ts` (`PASS_THRESHOLD`);
* the failure classifier (`classifyFailureClass`);
* the deterministic guard (`evaluateDeterministicGuards`, `signalCoverage`);
* `src/lib/scoring/aggregate.ts` (`aggregateRunScores`);
* `src/lib/runs/service.ts` (`updateRunStatus`, `cancelRun`, `finalizeRun`);
* `src/lib/runs/events.ts` (`appendRunEvent`, `getRunEventsAfter`);
* the orchestrator's `executeTaskOnWorker` agent loop.

Modelling conventions:

* JavaScript numbers are modelled as `ℚ` (scores, costs) or `ℕ`
  (counters, ids).  Floating-point rounding is not modelled; retrieval
  scores, which are reals of the form `overlap / √n`, are represented
  exactly by the pair `(overlap, n)` and compared by cross-multiplied
  squares, an order- and equality-faithful representation for these
  nonnegative values.
* Strings are ASCII text; `toLowerCase` is `Char.toLower` character-wise
  and `localeCompare` on the ASCII keys produced here is modelled as
  code-point order.
* Asynchronous model calls and store reads are environment inputs: each
  loop iteration takes the results of its plan/act/reflect calls, the
  cancellation flag and the freshly-read run cost as an `IterEnv`; the
  judge's two LLM calls are fields of `JudgeEnv`-style inputs.
* Store side effects are modelled by returning the written values.
-/

namespace JsText

/-- Whitespace characters matched by JavaScript `\s` (ASCII fragment):
space, tab, newline, carriage return, vertical tab, form feed. -/
def isJsWs (c : Char) : Bool :=
  c = ' ' || c = '\t' || c = '\n' || c = '\r' || c = Char.ofNat 11 || c = Char.ofNat 12

/-- `String.prototype.toLowerCase` on ASCII text. -/
def jsToLower (s : String) : String :=
  String.mk (s.data.map Char.toLower)

/-- Substring test on character lists (JavaScript `String.prototype.includes`). -/
def listContainsSub (sub : List Char) : List Char → Bool
  | [] => sub.isEmpty
  | c :: t => sub.isPrefixOf (c :: t) || listContainsSub sub t

/-- `hay.includes(sub)`. -/
def strContainsSub (hay sub : String) : Bool :=
  listContainsSub sub.data hay.data

/-- A disjunctive regex of literal alternatives, e.g. `/outdated|deprecated/`,
tested against `hay`: some alternative occurs as a substring. -/
def strContainsAny (hay : String) (subs : List String) : Bool :=
  subs.any (fun sub => strContainsSub hay sub)

/-- Collapse runs of spaces to a single space (the text has already had every
whitespace character replaced by a space). -/
def squeezeSpaces : List Char → List Char
  | [] => []
  | [c] => [c]
  | a :: b :: rest =>
    if a = ' ' && b = ' ' then squeezeSpaces (b :: rest)
    else a :: squeezeSpaces (b :: rest)

/-- Drop leading and trailing spaces. -/
def trimSpaces (l : List Char) : List Char :=
  ((l.dropWhile (fun c => c = ' ')).reverse.dropWhile (fun c => c = ' ')).reverse

/-- `text.toLowerCase().replace(/\s+/g, " ").trim()` — the `normalizeText`
helper shared by the deterministic guard and the orchestrator. -/
def normalizeText (s : String) : String :=
  String.mk (trimSpaces (squeezeSpaces
    (s.data.map (fun c => if isJsWs c then ' ' else c.toLower))))

/-- Suffix of `hay` after the first occurrence of `pat`, if any. -/
def afterFirstOcc (pat : List Char) : List Char → Option (List Char)
  | [] => if pat.isEmpty then some [] else none
  | c :: t =>
    if pat.isPrefixOf (c :: t) then some ((c :: t).drop pat.length)
    else afterFirstOcc pat t

/-- Test for a regex of the shape `(w1|…) .* (w2|…)` with literal word
alternatives and explicit spaces around `.*` (which, on normalized text,
cannot span line breaks because none remain).  The regex matches iff some
occurrence of `w1 ++ " "` is followed, in the remaining suffix, by an
occurrence of `" " ++ w2`; the first occurrence of `w1 ++ " "` has the
largest suffix, so testing it alone is sufficient. -/
def matchesGapRegex (text : String) (firsts seconds : List String) : Bool :=
  firsts.any (fun w1 =>
    match afterFirstOcc (w1 ++ " ").data text.data with
    | some suffix => seconds.any (fun w2 => listContainsSub (" " ++ w2).data suffix)
    | none => false)

/-- The word `can't` (apostrophe written via its code point). -/
def canApostT : String := String.mk ['c', 'a', 'n', Char.ofNat 39, 't']

end JsText

namespace Scoring

/-- `CriterionScores` from `src/lib/scoring/types.ts`. -/
structure CriterionScores where
  completeness : ℚ
  correctness : ℚ
  groundedness : ℚ
  actionability : ℚ
  average : ℚ
deriving DecidableEq

/-- The four raw rubric criteria (`Omit<CriterionScores, "average">`). -/
structure RawScores where
  completeness : ℚ
  correctness : ℚ
  groundedness : ℚ
  actionability : ℚ
deriving DecidableEq

/-- `FailureClass` from `src/lib/runs/types.ts`. -/
inductive FailureClass where
  | missing_content
  | insufficient_detail
  | ambiguous_instructions
  | outdated_content
  | poor_structure
  | missing_examples
  | broken_links
deriving DecidableEq

/-- The `validSuggestions.includes` membership test of the failure
classifier, fused with the string-to-variant cast. -/
def parseFailureClass (s : String) : Option FailureClass :=
  if s = "missing_content" then some .missing_content
  else if s = "insufficient_detail" then some .insufficient_detail
  else if s = "ambiguous_instructions" then some .ambiguous_instructions
  else if s = "outdated_content" then some .outdated_content
  else if s = "poor_structure" then some .poor_structure
  else if s = "missing_examples" then some .missing_examples
  else if s = "broken_links" then some .broken_links
  else none

/-- `classifyFailureClass` (failure classifier module).  `suggested` is the
judge's `suggestedFailureClass`; a missing or empty string is falsy in the
source's `if (suggested && validSuggestions.includes(...))`. -/
def classifyFailureClass (scores : CriterionScores) (rationale : String)
    (suggested : Option String) : FailureClass :=
  match suggested.bind (fun s => if s = "" then none else parseFailureClass s) with
  | some fc => fc
  | none =>
    let lowerRationale := JsText.jsToLower rationale
    if JsText.strContainsAny lowerRationale ["outdated", "deprecated", "old version"] then
      .outdated_content
    else if JsText.strContainsAny lowerRationale ["broken link", "404", "missing page"] then
      .broken_links
    else if scores.groundedness < 5 then
      .missing_content
    else if scores.actionability < 6 ∧ scores.completeness < 6 then
      .insufficient_detail
    else if JsText.strContainsAny lowerRationale
        ["ambiguous", "unclear", "multiple interpretation"] then
      .ambiguous_instructions
    else if JsText.strContainsAny lowerRationale ["no example", "missing example"] then
      .missing_examples
    else
      .poor_structure

/-- The failure-classification order exactly as the specification states it:
suggested class first, then all four rationale heuristics, then the two
score-based rules, then the default.  Used to compare the spec's order with
the code's. -/
def claimedClassify (scores : CriterionScores) (rationale : String)
    (suggested : Option String) : FailureClass :=
  match suggested.bind (fun s => if s = "" then none else parseFailureClass s) with
  | some fc => fc
  | none =>
    let lowerRationale := JsText.jsToLower rationale
    if JsText.strContainsAny lowerRationale ["outdated", "deprecated"] then
      .outdated_content
    else if JsText.strContainsAny lowerRationale ["broken link", "404"] then
      .broken_links
    else if JsText.strContainsAny lowerRationale ["no example", "missing example"] then
      .missing_examples
    else if JsText.strContainsAny lowerRationale ["ambiguous", "unclear"] then
      .ambiguous_instructions
    else if scores.groundedness < 5 then
      .missing_content
    else if scores.actionability < 6 ∧ scores.completeness < 6 then
      .insufficient_detail
    else
      .poor_structure

/-- First rule whose guard holds, with a default: the amended description of
the classifier as a priority list. -/
def firstHit : List (Bool × FailureClass) → FailureClass → FailureClass
  | [], dflt => dflt
  | (true, fc) :: _, _ => fc
  | (false, _) :: rest, dflt => firstHit rest dflt

/-- The classifier's actual rule order, restated as a priority list:
suggested class; outdated/deprecated/old-version heuristic; broken-link
heuristic; `groundedness < 5`; `actionability < 6 ∧ completeness < 6`;
ambiguity heuristic; missing-example heuristic; `poor_structure`. -/
def amendedClassify (scores : CriterionScores) (rationale : String)
    (suggested : Option String) : FailureClass :=
  match suggested.bind (fun s => if s = "" then none else parseFailureClass s) with
  | some fc => fc
  | none =>
    let lowerRationale := JsText.jsToLower rationale
    firstHit
      [ (JsText.strContainsAny lowerRationale ["outdated", "deprecated", "old version"],
          .outdated_content),
        (JsText.strContainsAny lowerRationale ["broken link", "404", "missing page"],
          .broken_links),
        (decide (scores.groundedness < 5), .missing_content),
        (decide (scores.actionability < 6) && decide (scores.completeness < 6),
          .insufficient_detail),
        (JsText.strContainsAny lowerRationale ["ambiguous", "unclear", "multiple interpretation"],
          .ambiguous_instructions),
        (JsText.strContainsAny lowerRationale ["no example", "missing example"],
          .missing_examples) ]
      .poor_structure

end Scoring

namespace Tasks

/-- `GeneratedTask` from `src/lib/tasks/types.ts` (category and difficulty
kept as strings; they do not influence any verified operation). -/
structure GeneratedTask where
  taskId : String
  name : String
  description : String
  category : String
  difficulty : String
  expectedSignals : List String
deriving DecidableEq

end Tasks

namespace Agent

/-- A citation produced by an act step (`citationSchema`). -/
structure EvidenceCitation where
  source : String
  snippetHash : Option String
  excerpt : String
  startOffset : Option ℕ
  endOffset : Option ℕ
deriving DecidableEq

/-- Token usage of one model call (`ModelUsage`). -/
structure ModelUsage where
  inputTokens : ℕ
  outputTokens : ℕ
deriving DecidableEq

/-- `AgentTaskAttempt` from `src/lib/execution/agent-runner.ts`. -/
structure AgentTaskAttempt where
  taskId : String
  answer : String
  steps : List String
  citations : List EvidenceCitation
  rawOutput : String
  model : String
  usage : ModelUsage
  latencyMs : ℕ
  costEstimateUsd : ℚ
deriving DecidableEq

end Agent

namespace DetChecks

/-- Result of `signalCoverage` / `expectedSignalCoverage`. -/
structure Coverage where
  matched : List String
  missed : List String
  ratio : ℚ
deriving DecidableEq

/-- The structured `details` payloads attached to deterministic checks. -/
inductive CheckDetails where
  | citation (citationCount : ℕ)
  | coverage (matched missed : List String) (ratio : ℚ)
  | stepDepth (answerSteps loopSteps : ℕ)
  | termination (stopReason : String)
deriving DecidableEq

/-- One row of `DeterministicGuards.checks`. -/
structure DeterministicCheck where
  name : String
  passed : Bool
  scoreDelta : ℚ
  details : CheckDetails
deriving DecidableEq

/-- `DeterministicGuards` from the deterministic-checks module. -/
structure DeterministicGuards where
  groundednessCap : Option ℚ
  correctnessCap : Option ℚ
  completenessCap : Option ℚ
  actionabilityCap : Option ℚ
  passBlockedReasons : List String
  checks : List DeterministicCheck
deriving DecidableEq

/-- `signalCoverage` from the deterministic-checks module: empty signal list
is full coverage; otherwise each signal whose normalization is non-empty is
matched by case/whitespace-normalized substring containment. -/
def signalCoverage (expectedSignals : List String) (candidateText : String) : Coverage :=
  if expectedSignals.isEmpty then
    { matched := [], missed := [], ratio := 1 }
  else
    let normalizedCandidate := JsText.normalizeText candidateText
    let acc := expectedSignals.foldl
      (fun (acc : List String × List String) signal =>
        let normalizedSignal := JsText.normalizeText signal
        if normalizedSignal = "" then acc
        else if JsText.strContainsSub normalizedCandidate normalizedSignal then
          (acc.1 ++ [signal], acc.2)
        else
          (acc.1, acc.2 ++ [signal]))
      ([], [])
    { matched := acc.1
      missed := acc.2
      ratio := if 0 < expectedSignals.length then
          (acc.1.length : ℚ) / (expectedSignals.length : ℚ)
        else 1 }

/-- `evaluateDeterministicGuards` (the variant called by the orchestrator:
citation presence, expected-signal coverage, actionable step depth and
bounded termination). -/
def evaluateDeterministicGuards (task : Tasks.GeneratedTask)
    (attempt : Agent.AgentTaskAttempt) (stepCount : ℕ) (stopReason : String) :
    DeterministicGuards :=
  let citationCount := attempt.citations.length
  let citationCheckPassed := decide (0 < citationCount)
  let citationCheck : DeterministicCheck :=
    { name := "citation_presence"
      passed := citationCheckPassed
      scoreDelta := if citationCheckPassed then 0 else -2
      details := .citation citationCount }
  let groundednessCap : Option ℚ := if citationCheckPassed then none else some 3
  let reasons : List String := if citationCheckPassed then [] else ["missing_citations"]
  let allAnswerText := attempt.answer ++ "\n" ++ String.intercalate "\n" attempt.steps
  let coverage := signalCoverage task.expectedSignals allAnswerText
  let coveragePassed := decide ((45 : ℚ) / 100 ≤ coverage.ratio)
  let coverageCheck : DeterministicCheck :=
    { name := "expected_signal_coverage"
      passed := coveragePassed
      scoreDelta := if coveragePassed then 0 else -1
      details := .coverage coverage.matched coverage.missed coverage.ratio }
  let completenessCap : Option ℚ := if coveragePassed then none else some 6
  let stepCheckPassed := decide (2 ≤ attempt.steps.length) && decide (2 ≤ stepCount)
  let stepCheck : DeterministicCheck :=
    { name := "actionable_step_depth"
      passed := stepCheckPassed
      scoreDelta := if stepCheckPassed then 0 else -1
      details := .stepDepth attempt.steps.length stepCount }
  let actionabilityCap : Option ℚ := if stepCheckPassed then none else some 6
  let stopReasonPassed := stopReason == "completed"
  let stopCheck : DeterministicCheck :=
    { name := "bounded_termination"
      passed := stopReasonPassed
      scoreDelta := if stopReasonPassed then 0 else -(1 / 2)
      details := .termination stopReason }
  let correctnessCap : Option ℚ := if stopReasonPassed then none else some (min 10 8)
  { groundednessCap := groundednessCap
    correctnessCap := correctnessCap
    completenessCap := completenessCap
    actionabilityCap := actionabilityCap
    passBlockedReasons := reasons
    checks := [citationCheck, coverageCheck, stepCheck, stopCheck] }

end DetChecks

namespace Scoring

/-- `TaskEvaluationResult` from `src/lib/scoring/types.ts`, as produced by
`judgeTaskAttempt`. -/
structure TaskEvaluationResult where
  taskId : String
  pass : Bool
  qualityPass : Bool
  validityPass : Bool
  validityBlockedReasons : List String
  failureClass : Option FailureClass
  rationale : String
  confidence : ℚ
  criterionScores : CriterionScores
  deterministicChecks : Option (List DetChecks.DeterministicCheck)
  passBlocked : Bool
deriving DecidableEq

/-- The record literal built by `aggregateRunScores` in
`src/lib/scoring/aggregate.ts`.  The failure breakdown is the insertion-
ordered key/count map the `reduce` builds. -/
structure RunAggregateScore where
  totalTasks : ℕ
  passedTasks : ℕ
  failedTasks : ℕ
  passRate : ℚ
  averageScore : ℚ
  failureBreakdown : List (FailureClass × ℕ)
deriving DecidableEq

/-- `acc[cls] = (acc[cls] ?? 0) + 1` on an insertion-ordered map. -/
def bumpBreakdown : List (FailureClass × ℕ) → FailureClass → List (FailureClass × ℕ)
  | [], fc => [(fc, 1)]
  | (k, n) :: rest, fc =>
    if k = fc then (k, n + 1) :: rest else (k, n) :: bumpBreakdown rest fc

/-- `aggregateRunScores` from `src/lib/scoring/aggregate.ts`. -/
def aggregateRunScores (evaluations : List TaskEvaluationResult) : RunAggregateScore :=
  if evaluations.isEmpty then
    { totalTasks := 0, passedTasks := 0, failedTasks := 0, passRate := 0
      averageScore := 0, failureBreakdown := [] }
  else
    let passedTasks := (evaluations.filter (fun e => e.pass)).length
    let totalTasks := evaluations.length
    let failedTasks := totalTasks - passedTasks
    let averageScore :=
      (evaluations.foldl (fun s e => s + e.criterionScores.average) 0) / (totalTasks : ℚ)
    let failureBreakdown := evaluations.foldl
      (fun acc e =>
        match e.failureClass with
        | none => acc
        | some fc => bumpBreakdown acc fc)
      []
    { totalTasks := totalTasks
      passedTasks := passedTasks
      failedTasks := failedTasks
      passRate := if 0 < totalTasks then (passedTasks : ℚ) / (totalTasks : ℚ) else 0
      averageScore := averageScore
      failureBreakdown := failureBreakdown }

end Scoring

namespace RunService

/-- `RunStatus` from `src/lib/runs/types.ts`. -/
inductive RunStatus where
  | queued
  | ingesting
  | generating_tasks
  | running
  | evaluating
  | completed
  | failed
  | canceled
deriving DecidableEq

/-- `terminalStatuses.includes(status)` in `updateRunStatus`. -/
def isTerminalStatus (s : RunStatus) : Bool :=
  match s with
  | .completed => true
  | .failed => true
  | .canceled => true
  | _ => false

/-- The status columns of one `runs` row touched by the verified
operations. -/
structure RunRow where
  status : RunStatus
  endedAt : Option ℕ
  totals : Option Scoring.RunAggregateScore
deriving DecidableEq

/-- `updateRunStatus` from `src/lib/runs/service.ts`: a requested transition
to a non-terminal status is dropped when the stored status is terminal;
otherwise the status is written and `endedAt` is set exactly for terminal
statuses.  `now` stands for `Date.now()`. -/
def updateRunStatus (row : RunRow) (status : RunStatus) (now : ℕ) : RunRow :=
  if isTerminalStatus row.status && !isTerminalStatus status then row
  else
    { row with
      status := status
      endedAt := if isTerminalStatus status then some now else none }

/-- The terminal statuses `finalizeRun` may write
(`Extract<RunStatus, "completed" | "failed" | "canceled">`). -/
inductive FinalStatus where
  | completed
  | failed
  | canceled
deriving DecidableEq

def FinalStatus.toRunStatus : FinalStatus → RunStatus
  | .completed => .completed
  | .failed => .failed
  | .canceled => .canceled

/-- `finalizeRun` from `src/lib/runs/service.ts` (status/totals/`endedAt`
write; the worker flips do not touch the run row). -/
def finalizeRun (row : RunRow) (status : FinalStatus)
    (totals : Option Scoring.RunAggregateScore) (now : ℕ) : RunRow :=
  { row with
    status := status.toRunStatus
    totals := totals
    endedAt := some now }

/-- `cancelRun`, which routes through `updateRunStatus(runId, "canceled")`. -/
def cancelRun (row : RunRow) (now : ℕ) : RunRow :=
  updateRunStatus row .canceled now

/-- The run-status operations that can touch `run.status` after creation. -/
inductive RunOp where
  | update (status : RunStatus) (now : ℕ)
  | finalize (status : FinalStatus) (totals : Option Scoring.RunAggregateScore) (now : ℕ)
  | cancel (now : ℕ)
deriving DecidableEq

def applyRunOp (row : RunRow) : RunOp → RunRow
  | .update status now => updateRunStatus row status now
  | .finalize status totals now => finalizeRun row status totals now
  | .cancel now => cancelRun row now

end RunService

namespace Judge

/-- `PASS_THRESHOLD` from the rubric module. -/
def PASS_THRESHOLD : ℚ := 7

/-- Result of the alignment LLM call (`alignmentSchema`). -/
structure AlignmentResult where
  isSupportedByEvidence : Bool
  unsupportedClaims : List String
  notes : String
deriving DecidableEq

/-- Result of a rubric LLM call (`rubricScoreSchema`); `suggestedFailureClass`
is a string with schema default `"none"`. -/
structure RubricResult where
  scores : Scoring.RawScores
  rationale : String
  confidence : ℚ
  suggestedFailureClass : String
deriving DecidableEq

/-- `averageScores` from `src/lib/evaluation/judge.ts`. -/
def averageScores (scores : Scoring.RawScores) : ℚ :=
  (scores.completeness + scores.correctness + scores.groundedness +
    scores.actionability) / 4

/-- `applyGuardrails` from `src/lib/evaluation/judge.ts`: judge-side caps
(citations, step count, unsupported claims), then the deterministic guard's
per-criterion caps, then the recomputed average. -/
def applyGuardrails (rawScores : Scoring.RawScores)
    (attempt : Agent.AgentTaskAttempt) (unsupportedClaims : List String)
    (deterministicGuards : Option DetChecks.DeterministicGuards) :
    Scoring.CriterionScores :=
  let g1 : ℚ :=
    if attempt.citations.length = 0 then min rawScores.groundedness 4
    else rawScores.groundedness
  let a1 : ℚ :=
    if attempt.steps.length < 2 then min rawScores.actionability 6
    else rawScores.actionability
  let c1 : ℚ :=
    if 0 < unsupportedClaims.length then min rawScores.correctness 6
    else rawScores.correctness
  let g2 : ℚ :=
    if 0 < unsupportedClaims.length then min g1 5 else g1
  let g3 : ℚ :=
    match deterministicGuards.bind (fun g => g.groundednessCap) with
    | some cap => min g2 cap
    | none => g2
  let c2 : ℚ :=
    match deterministicGuards.bind (fun g => g.correctnessCap) with
    | some cap => min c1 cap
    | none => c1
  let k1 : ℚ :=
    match deterministicGuards.bind (fun g => g.completenessCap) with
    | some cap => min rawScores.completeness cap
    | none => rawScores.completeness
  let a2 : ℚ :=
    match deterministicGuards.bind (fun g => g.actionabilityCap) with
    | some cap => min a1 cap
    | none => a1
  { completeness := k1
    correctness := c2
    groundedness := g3
    actionability := a2
    average := averageScores
      { completeness := k1, correctness := c2, groundedness := g3, actionability := a2 } }

/-- `Number(x.toFixed(2))`: round to two decimals, ties away from zero for
the nonnegative values produced here.  (The binary-double representation
underlying the host's `toFixed` is not modelled; the specification itself
flags `toFixed(2)` as host-dependent.) -/
def round2 (q : ℚ) : ℚ :=
  (⌊q * 100 + 1 / 2⌋ : ℚ) / 100

/-- Everything `judgeTaskAttempt` consumes: its arguments plus the results
of its LLM calls (alignment, first rubric pass, optional tie-break rubric
pass, supplied as environment inputs). -/
structure JudgeInput where
  task : Tasks.GeneratedTask
  attempt : Agent.AgentTaskAttempt
  tieBreakEnabled : Bool
  deterministicGuards : Option DetChecks.DeterministicGuards
  alignment : AlignmentResult
  baseRubric : RubricResult
  rerubric : RubricResult
deriving DecidableEq

/-- `judgeTaskAttempt` from `src/lib/evaluation/judge.ts`, with the two LLM
calls replaced by the `JudgeInput` environment fields. -/
def judgeTaskAttempt (inp : JudgeInput) : Scoring.TaskEvaluationResult :=
  let initial := applyGuardrails inp.baseRubric.scores inp.attempt
    inp.alignment.unsupportedClaims inp.deterministicGuards
  let finalScores :=
    if inp.tieBreakEnabled && decide ((13 : ℚ) / 2 ≤ initial.average) &&
        decide (initial.average ≤ (15 : ℚ) / 2) then
      let rerun := applyGuardrails inp.rerubric.scores inp.attempt
        inp.alignment.unsupportedClaims inp.deterministicGuards
      { completeness := round2 ((initial.completeness + rerun.completeness) / 2)
        correctness := round2 ((initial.correctness + rerun.correctness) / 2)
        groundedness := round2 ((initial.groundedness + rerun.groundedness) / 2)
        actionability := round2 ((initial.actionability + rerun.actionability) / 2)
        average := round2 ((initial.average + rerun.average) / 2) }
    else initial
  let guardReasons :=
    match inp.deterministicGuards with
    | some g => g.passBlockedReasons
    | none => []
  let passBlocked := decide (0 < guardReasons.length)
  let qualityPass := decide (PASS_THRESHOLD ≤ finalScores.average)
  let validityBlockedReasons :=
    (if !inp.alignment.isSupportedByEvidence then ["unsupported_by_evidence"] else []) ++
    (if passBlocked then guardReasons else [])
  let validityPass := validityBlockedReasons.isEmpty
  let pass := qualityPass && validityPass
  let rationaleParts :=
    (if inp.baseRubric.rationale ≠ "" then [inp.baseRubric.rationale] else []) ++
    (if inp.alignment.notes ≠ "" then ["Alignment: " ++ inp.alignment.notes] else []) ++
    (if passBlocked then
        ["Deterministic blocks: " ++ String.intercalate ", " guardReasons]
      else [])
  let rationale :=
    String.mk (JsText.trimSpaces (String.intercalate " " rationaleParts).data)
  let failureClass :=
    if pass then none
    else some (Scoring.classifyFailureClass finalScores rationale
      (some inp.baseRubric.suggestedFailureClass))
  { taskId := inp.task.taskId
    pass := pass
    qualityPass := qualityPass
    validityPass := validityPass
    validityBlockedReasons := validityBlockedReasons
    failureClass := failureClass
    rationale := rationale
    confidence := inp.baseRubric.confidence
    criterionScores := finalScores
    deterministicChecks := inp.deterministicGuards.map (fun g => g.checks)
    passBlocked := passBlocked }

end Judge

namespace Retrieval

/-- Characters that survive `replace(/[^a-z0-9\s]/g, " ")` after lowering. -/
def isLowerAlnum (c : Char) : Bool :=
  ('a' ≤ c && c ≤ 'z') || ('0' ≤ c && c ≤ '9')

/-- Split on spaces (every separator has been mapped to a space). -/
def splitAux (acc : List Char) : List Char → List (List Char)
  | [] => [acc.reverse]
  | c :: t => if c = ' ' then acc.reverse :: splitAux [] t else splitAux (c :: acc) t

/-- `tokenize` from the retrieval module: lowercase, strip every character
that is not `[a-z0-9]` or whitespace, split on whitespace runs, keep tokens
of length at least 3.  (Mapping whitespace and stripped characters alike to
a single separator is equivalent because the split discards separators and
the length filter discards empty pieces.) -/
def tokenize (text : String) : List String :=
  let cleaned := text.data.map (fun c =>
    let lc := c.toLower
    if isLowerAlnum lc then lc else ' ')
  ((splitAux [] cleaned).map String.mk).filter (fun token => 3 ≤ token.length)

/-- `CorpusChunk` from the retrieval module. -/
structure CorpusChunk where
  sourceUrl : String
  artifactType : String
  text : String
  snippetHash : String
deriving DecidableEq

/-- `ScoredChunk`.  The source's `score` is the real
`overlap / max(1, √tokenCount)`; it is represented exactly by the pair
`(overlap, tokenCount)`, and the comparator compares the represented reals
by cross-multiplying squares (order- and equality-faithful for these
nonnegative values, with none of the host's floating-point rounding). -/
structure ScoredChunk where
  chunk : CorpusChunk
  overlap : ℕ
  tokenCount : ℕ
deriving DecidableEq

/-- The real score `overlap / max(1, √tokenCount)` of the source, in
squared form. -/
def scoreSqOf (s : ScoredChunk) : ℚ :=
  ((s.overlap : ℚ) * s.overlap) / ((max 1 s.tokenCount : ℕ) : ℚ)

/-- `score a = score b` (cross-multiplied squares). -/
def scoreEq (a b : ScoredChunk) : Bool :=
  a.overlap * a.overlap * max 1 b.tokenCount = b.overlap * b.overlap * max 1 a.tokenCount

/-- `score a < score b` (cross-multiplied squares). -/
def scoreLt (a b : ScoredChunk) : Bool :=
  a.overlap * a.overlap * max 1 b.tokenCount < b.overlap * b.overlap * max 1 a.tokenCount

/-- Stable insertion of `x` into a list sorted by the comes-no-later
relation `le`: `x` goes before the first element it may precede. -/
def insertBy {α : Type} (le : α → α → Bool) (x : α) : List α → List α
  | [] => [x]
  | y :: ys => if le x y then x :: y :: ys else y :: insertBy le x ys

/-- Stable insertion sort by a comes-no-later relation; for a total
preorder its output is the unique stable sorted permutation, which is what
`Array.prototype.sort` produces. -/
def sortBy {α : Type} (le : α → α → Bool) : List α → List α
  | [] => []
  | x :: xs => insertBy le x (sortBy le xs)

/-- The tie key `` `${sourceUrl}::${snippetHash}` `` of the sort comparator. -/
def tieKey (c : CorpusChunk) : String :=
  c.sourceUrl ++ "::" ++ c.snippetHash

/-- The sort comparator of `retrieveTopChunksWithScores` as a
comes-no-later relation: higher score first, then ascending tie key
(`localeCompare` modelled as code-point order on these ASCII keys). -/
def chunkLe (a b : ScoredChunk) : Bool :=
  scoreLt b a || (scoreEq a b && decide (tieKey a.chunk ≤ tieKey b.chunk))

/-- Per-chunk scoring of `retrieveTopChunksWithScores`: the overlap counter
is accumulated over the chunk-token list (one increment per occurrence of a
token the query token set contains). -/
def scoreChunk (queryTokens : List String) (chunk : CorpusChunk) : ScoredChunk :=
  let chunkTokens := tokenize chunk.text
  { chunk := chunk
    overlap := chunkTokens.foldl
      (fun acc token => if queryTokens.contains token then acc + 1 else acc) 0
    tokenCount := chunkTokens.length }

/-- `retrieveTopChunksWithScores` from the retrieval module: score every
chunk against the query token set, sort by descending score with the tie
key, truncate to `topK`. -/
def retrieveTopChunksWithScores (chunks : List CorpusChunk) (query : String)
    (topK : ℕ) : List ScoredChunk :=
  (sortBy chunkLe (chunks.map (scoreChunk (tokenize query)))).take topK

/-- `retrieveTopChunks`. -/
def retrieveTopChunks (chunks : List CorpusChunk) (query : String) (topK : ℕ) :
    List CorpusChunk :=
  (retrieveTopChunksWithScores chunks query topK).map (fun entry => entry.chunk)

/-- Lexicographic comparison of the pair `(sourceUrl, snippetHash)`,
as the claim words the tie-break. -/
def pairLe (a b : CorpusChunk) : Bool :=
  decide (a.sourceUrl < b.sourceUrl) ||
    (a.sourceUrl == b.sourceUrl && decide (a.snippetHash ≤ b.snippetHash))

/-- The real score the claim states, `interCard / √tokenCount`, in squared
form (`ℚ` division by zero yields `0` on token-free chunks, which the
claim's formula leaves undefined). -/
def claimedScoreSqOf (s : ScoredChunk) : ℚ :=
  ((s.overlap : ℚ) * s.overlap) / ((s.tokenCount : ℕ) : ℚ)

/-- `claimed score a = claimed score b` for token-bearing chunks. -/
def claimedScoreEq (a b : ScoredChunk) : Bool :=
  a.overlap * a.overlap * b.tokenCount = b.overlap * b.overlap * a.tokenCount

/-- `claimed score a < claimed score b` for token-bearing chunks. -/
def claimedScoreLt (a b : ScoredChunk) : Bool :=
  a.overlap * a.overlap * b.tokenCount < b.overlap * b.overlap * a.tokenCount

/-- Per-chunk scoring exactly as the claim states it: the cardinality of
the intersection of the query token set and the chunk token set. -/
def claimedScoreChunk (queryTokenSet : List String) (chunk : CorpusChunk) : ScoredChunk :=
  let chunkTokens := tokenize chunk.text
  { chunk := chunk
    overlap := (chunkTokens.eraseDups).countP (fun t => queryTokenSet.contains t)
    tokenCount := chunkTokens.length }

/-- Retrieval exactly as the claim states it: set-intersection scores and
ties broken lexicographically on the pair `(sourceUrl, snippetHash)`. -/
def claimedRetrieveTopChunks (chunks : List CorpusChunk) (query : String)
    (topK : ℕ) : List ScoredChunk :=
  (sortBy
    (fun a b => claimedScoreLt b a || (claimedScoreEq a b && pairLe a.chunk b.chunk))
    (chunks.map (claimedScoreChunk ((tokenize query).eraseDups)))).take topK

/-- The amended per-chunk score: the number of chunk-token occurrences
(with multiplicity) lying in the query token set. -/
def amendedScoreChunk (queryTokens : List String) (chunk : CorpusChunk) : ScoredChunk :=
  let chunkTokens := tokenize chunk.text
  { chunk := chunk
    overlap := (chunkTokens.filter (fun t => queryTokens.contains t)).length
    tokenCount := chunkTokens.length }

/-- Retrieval as amended: multiplicity-counting scores, tie key
`sourceUrl ++ "::" ++ snippetHash`. -/
def amendedRetrieveTopChunks (chunks : List CorpusChunk) (query : String)
    (topK : ℕ) : List ScoredChunk :=
  (sortBy chunkLe (chunks.map (amendedScoreChunk (tokenize query)))).take topK

end Retrieval

namespace Events

/-- One row of `run_events` (schema: autoincrement `id`, per-run `seq`). -/
structure EventRow where
  id : ℕ
  runId : String
  seq : ℕ
  eventType : String
  payloadJson : String
  createdAt : ℕ
deriving DecidableEq

/-- `appendRunEvent` from `src/lib/runs/events.ts`: `seq` is
`max(existing seq of the run) ?? 0` plus one; the insert assigns the next
autoincrement `id` (max existing id plus one); the function returns the
written `seq`. -/
def appendRunEvent (store : List EventRow) (runId eventType payloadJson : String)
    (now : ℕ) : List EventRow × ℕ :=
  let seq := (store.filter (fun r => r.runId == runId)).foldl
    (fun m r => max m r.seq) 0 + 1
  let nextId := store.foldl (fun m r => max m r.id) 0 + 1
  (store ++ [{ id := nextId, runId := runId, seq := seq, eventType := eventType,
               payloadJson := payloadJson, createdAt := now }], seq)

/-- Row order used by `ORDER BY seq ASC`. -/
def seqLe (a b : EventRow) : Prop := a.seq ≤ b.seq

instance : DecidableRel seqLe := fun a b => inferInstanceAs (Decidable (a.seq ≤ b.seq))

/-- `getRunEventsAfter` from `src/lib/runs/events.ts`:
`WHERE runId = ? AND seq > afterSeq ORDER BY seq ASC LIMIT limit`.
(The source then projects each row to `{seq, eventType, payload, createdAt}`;
the rows are kept whole here so that their ids remain inspectable.) -/
def getRunEventsAfter (store : List EventRow) (runId : String) (afterSeq : ℕ)
    (limit : ℕ) : List EventRow :=
  (List.insertionSort seqLe
    (store.filter (fun r => r.runId == runId && afterSeq < r.seq))).take limit

/-- Row order by `id`. -/
def idLe (a b : EventRow) : Prop := a.id ≤ b.id

instance : DecidableRel idLe := fun a b => inferInstanceAs (Decidable (a.id ≤ b.id))

/-- The read the claim describes: cursor on the globally ordered
auto-increment `id` rather than the per-run `seq`. -/
def claimedReadAfterById (store : List EventRow) (runId : String) (afterId : ℕ)
    (limit : ℕ) : List EventRow :=
  (List.insertionSort idLe
    (store.filter (fun r => r.runId == runId && afterId < r.id))).take limit

/-- One append operation. -/
structure AppendOp where
  runId : String
  eventType : String
  payloadJson : String
  now : ℕ
deriving DecidableEq

/-- A store produced by a sequence of appends starting from empty. -/
def mkStore (ops : List AppendOp) : List EventRow :=
  ops.foldl (fun st op => (appendRunEvent st op.runId op.eventType op.payloadJson op.now).1) []

/-- Invariant of stores produced by appends: ids strictly increase in
insertion order, per-run seqs strictly increase in insertion order, and no
row's seq exceeds its id. -/
def StoreInv (store : List EventRow) : Prop :=
  store.Pairwise (fun a b => a.id < b.id) ∧
  store.Pairwise (fun a b => a.runId = b.runId → a.seq < b.seq) ∧
  (∀ r ∈ store, r.seq ≤ r.id)

end Events

namespace Orchestrator

/-- `TaskStopReason` from `src/lib/runs/types.ts`. -/
inductive TaskStopReason where
  | completed
  | step_limit
  | token_limit
  | cost_limit
  | cancelled
  | error
deriving DecidableEq

/-- The string stored for each stop reason. -/
def stopReasonStr : TaskStopReason → String
  | .completed => "completed"
  | .step_limit => "step_limit"
  | .token_limit => "token_limit"
  | .cost_limit => "cost_limit"
  | .cancelled => "cancelled"
  | .error => "error"

/-- `TaskStatus` from `src/lib/runs/types.ts`. -/
inductive TaskStatus where
  | pending
  | running
  | passed
  | failed
  | error
  | skipped
deriving DecidableEq

/-- A plan entry of `AgentMemoryState.plan`. -/
structure PlanItem where
  item : String
  done : Bool
deriving DecidableEq

/-- A fact entry of `AgentMemoryState.facts`. -/
structure Fact where
  fact : String
  citations : List String
deriving DecidableEq

structure RemainingBudget where
  steps : ℕ
  maxTokensPerTask : ℕ
  hardCostCapUsd : ℚ
deriving DecidableEq

/-- `AgentMemoryState` from `src/lib/runs/types.ts` (the `goal` object is
flattened into the three `goal*` fields). -/
structure AgentMemoryState where
  currentStep : ℕ
  goalName : String
  goalDescription : String
  goalSignals : List String
  plan : List PlanItem
  visitedSources : List String
  facts : List Fact
  stepSummaries : List String
  remainingBudget : RemainingBudget
deriving DecidableEq

/-- `dedupe` from the orchestrator: `[...new Set(values)]`, i.e. first
occurrences in order.  (The orchestrator applies it to fact and citation
records through `JSON.stringify`; stringification of these records is
injective, so structural deduplication is equivalent.) -/
def dedupe {α : Type} [BEq α] (values : List α) : List α :=
  values.eraseDups

/-- JavaScript `array.slice(-n)`: the last `n` elements. -/
def takeLast {α : Type} (n : ℕ) (l : List α) : List α :=
  l.drop (l.length - n)

/-- `initializeMemory` from the orchestrator. -/
def initializeMemory (task : Tasks.GeneratedTask) (maxSteps maxTokens : ℕ)
    (hardCostCapUsd : ℚ) : AgentMemoryState :=
  { currentStep := 0
    goalName := task.name
    goalDescription := task.description
    goalSignals := task.expectedSignals
    plan := task.expectedSignals.map (fun signal => { item := "Cover: " ++ signal, done := false })
    visitedSources := []
    facts := []
    stepSummaries := []
    remainingBudget :=
      { steps := maxSteps, maxTokensPerTask := maxTokens, hardCostCapUsd := hardCostCapUsd } }

/-- `expectedSignalCoverage` from the orchestrator (its ratio denominator is
`Math.max(1, expectedSignals.length)`; the guard module's twin divides by
the plain length). -/
def expectedSignalCoverage (expectedSignals : List String) (candidateText : String) :
    DetChecks.Coverage :=
  if expectedSignals.isEmpty then
    { matched := [], missed := [], ratio := 1 }
  else
    let normalizedCandidate := JsText.normalizeText candidateText
    let acc := expectedSignals.foldl
      (fun (acc : List String × List String) signal =>
        let normalizedSignal := JsText.normalizeText signal
        if normalizedSignal = "" then acc
        else if JsText.strContainsSub normalizedCandidate normalizedSignal then
          (acc.1 ++ [signal], acc.2)
        else
          (acc.1, acc.2 ++ [signal]))
      ([], [])
    { matched := acc.1
      missed := acc.2
      ratio := (acc.1.length : ℚ) / ((max 1 expectedSignals.length : ℕ) : ℚ) }

/-- `looksLikeMissingContent` from the orchestrator: the three gap regexes
tested against the normalized text. -/
def looksLikeMissingContent (text : String) : Bool :=
  let normalized := JsText.normalizeText text
  JsText.matchesGapRegex normalized ["no"] ["found", "provided", "available", "documented"] ||
  JsText.matchesGapRegex normalized ["not", "unable", "cannot", JsText.canApostT]
    ["find", "locate", "access", "determine"] ||
  JsText.matchesGapRegex normalized ["insufficient"] ["context", "information", "details"]

/-- Result of one planning call (`runPlanningStep`), with its usage. -/
structure PlanResult where
  planItems : List String
  rationale : String
  usage : Agent.ModelUsage
  costEstimateUsd : ℚ
deriving DecidableEq

/-- Result of one act call (`runActStep`), with its usage. -/
structure ActResult where
  answer : String
  stepOutput : String
  citations : List Agent.EvidenceCitation
  done : Bool
  doneReason : Option String
  discoveredFacts : List String
  usage : Agent.ModelUsage
  costEstimateUsd : ℚ
deriving DecidableEq

/-- Result of one reflect call (`runReflectStep`), with its usage. -/
structure ReflectResult where
  shouldContinue : Bool
  summary : String
  planUpdates : List String
  confidence : ℚ
  stopReason : Option String
  usage : Agent.ModelUsage
  costEstimateUsd : ℚ
deriving DecidableEq

/-- The environment one loop iteration observes: the cancellation flag and
run cost read at the top of the iteration, and the results of the three
model calls. -/
structure IterEnv where
  canceled : Bool
  runCostEstimate : ℚ
  plan : PlanResult
  act : ActResult
  reflect : ReflectResult
deriving DecidableEq

/-- The per-execution budget configuration plus the two run-config values
the loop consumes. -/
structure ExecCfg where
  maxStepsPerTask : ℕ
  maxTokensPerTask : ℕ
  hardCostCapUsd : ℚ
  tieBreakEnabled : Bool
  workerModelName : String
deriving DecidableEq

/-- The judge-call environment of one execution (alignment, first rubric
pass, tie-break rubric pass). -/
structure JudgeEnv where
  alignment : Judge.AlignmentResult
  baseRubric : Judge.RubricResult
  rerubric : Judge.RubricResult
deriving DecidableEq

/-- The mutable locals of `executeTaskOnWorker`'s loop. -/
structure LoopState where
  totalInputTokens : ℕ
  totalOutputTokens : ℕ
  totalCost : ℚ
  finalAnswer : String
  stepOutputs : List String
  citations : List Agent.EvidenceCitation
  memory : AgentMemoryState
deriving DecidableEq

/-- `applyUsage`: add the call's tokens and cost to the execution totals and
rewrite the remaining budget in agent memory.  (`Math.max(0, …)` on the
token budget is truncated subtraction on `ℕ`.) -/
def applyUsage (cfg : ExecCfg) (st : LoopState) (usage : Agent.ModelUsage)
    (costEstimateUsd : ℚ) : LoopState :=
  let totalIn := st.totalInputTokens + usage.inputTokens
  let totalOut := st.totalOutputTokens + usage.outputTokens
  let totalCost := st.totalCost + costEstimateUsd
  { st with
    totalInputTokens := totalIn
    totalOutputTokens := totalOut
    totalCost := totalCost
    memory := { st.memory with
      remainingBudget := { st.memory.remainingBudget with
        maxTokensPerTask := cfg.maxTokensPerTask - (totalIn + totalOut)
        hardCostCapUsd := max 0 (cfg.hardCostCapUsd - totalCost) } } }

def stateAfterPlan (cfg : ExecCfg) (st : LoopState) (env : IterEnv) : LoopState :=
  applyUsage cfg st env.plan.usage env.plan.costEstimateUsd

def stateAfterAct (cfg : ExecCfg) (st : LoopState) (env : IterEnv) : LoopState :=
  applyUsage cfg (stateAfterPlan cfg st env) env.act.usage env.act.costEstimateUsd

def stateAfterReflect (cfg : ExecCfg) (st : LoopState) (env : IterEnv) : LoopState :=
  applyUsage cfg (stateAfterAct cfg st env) env.reflect.usage env.reflect.costEstimateUsd

/-- The retrieval query built at the top of an iteration. -/
def retrievalQueryOf (task : Tasks.GeneratedTask) (memory : AgentMemoryState) : String :=
  String.intercalate "\n"
    [ task.name
      , task.description
      , String.intercalate " " task.expectedSignals
      , String.intercalate " "
          ((memory.plan.filter (fun item => !item.done)).map (fun item => item.item))
      , String.intercalate " " (takeLast 2 memory.stepSummaries)
      , String.intercalate " " ((takeLast 5 memory.facts).map (fun f => f.fact)) ]

/-- `` `${actResult.parsed.answer}\n${actResult.parsed.stepOutput}` ``. -/
def actCombinedText (act : ActResult) : String :=
  act.answer ++ "\n" ++ act.stepOutput

/-- The reflect-phase continuation override. -/
def shouldForceContinue (task : Tasks.GeneratedTask) (act : ActResult)
    (stepIndex : ℕ) : Bool :=
  !act.done &&
    (decide (stepIndex < 2) ||
      decide ((expectedSignalCoverage task.expectedSignals (actCombinedText act)).ratio <
        (3 : ℚ) / 4) ||
      act.citations.isEmpty ||
      looksLikeMissingContent (actCombinedText act))

def effectiveShouldContinue (task : Tasks.GeneratedTask) (act : ActResult)
    (reflect : ReflectResult) (stepIndex : ℕ) : Bool :=
  if shouldForceContinue task act stepIndex then true else reflect.shouldContinue

def effectiveStopReason (task : Tasks.GeneratedTask) (act : ActResult)
    (reflect : ReflectResult) (stepIndex : ℕ) : Option String :=
  if shouldForceContinue task act stepIndex then
    some "Continue: output is not yet implementation-complete."
  else reflect.stopReason

/-- `effectiveStopReason?.toLowerCase().includes("error") ? "error" :
"completed"`. -/
def classifyNonContinueStop (stopReason : Option String) : TaskStopReason :=
  match stopReason with
  | some s => if JsText.strContainsSub (JsText.jsToLower s) "error" then .error else .completed
  | none => .completed

/-- The loop state at the end of one full iteration (after the three usage
applications, the answer/step-output/citation accumulation and the memory
update). -/
def endOfIterationState (cfg : ExecCfg) (task : Tasks.GeneratedTask)
    (chunks : List Retrieval.CorpusChunk) (st : LoopState) (stepIndex : ℕ)
    (env : IterEnv) : LoopState :=
  let st3 := stateAfterReflect cfg st env
  let retrievedChunks :=
    (Retrieval.retrieveTopChunksWithScores chunks (retrievalQueryOf task st.memory) 8).map
      (fun entry => entry.chunk)
  let nextPlan := (dedupe (env.plan.planItems ++ env.reflect.planUpdates)).map
    (fun item => ({ item := item, done := false } : PlanItem))
  let latestFacts := ((dedupe env.act.discoveredFacts).take 8).map
    (fun fact =>
      ({ fact := fact, citations := env.act.citations.map (fun c => c.source) } : Fact))
  let memory := st3.memory
  let memory' := { memory with
    currentStep := stepIndex
    plan := if 0 < nextPlan.length then nextPlan else memory.plan
    visitedSources := dedupe (memory.visitedSources ++
      retrievedChunks.map (fun c => c.sourceUrl ++ "#" ++ c.snippetHash))
    facts := takeLast 20 (dedupe (memory.facts ++ latestFacts))
    stepSummaries := takeLast 12 (memory.stepSummaries ++ [env.reflect.summary])
    remainingBudget := { memory.remainingBudget with
      steps := cfg.maxStepsPerTask - stepIndex } }
  { st3 with
    finalAnswer := env.act.answer
    stepOutputs := st3.stepOutputs ++ [env.act.stepOutput]
    citations := st3.citations ++ env.act.citations
    memory := memory' }

/-- `toTaskAttempt` from the orchestrator. -/
def toTaskAttempt (task : Tasks.GeneratedTask) (finalAnswer : String)
    (stepOutputs : List String) (citations : List Agent.EvidenceCitation)
    (model : String) (tokensIn tokensOut : ℕ) (cost : ℚ) : Agent.AgentTaskAttempt :=
  { taskId := task.taskId
    answer := finalAnswer
    steps := if 0 < stepOutputs.length then stepOutputs else [finalAnswer]
    citations := citations
    rawOutput := finalAnswer
    model := model
    usage := { inputTokens := tokensIn, outputTokens := tokensOut }
    latencyMs := 0
    costEstimateUsd := cost }

/-- The outcome of one task execution: the task status written at the end,
the recorded stop reason and the evaluation, if one was produced. -/
structure ExecOutcome where
  status : TaskStatus
  stopReason : TaskStopReason
  evaluation : Option Scoring.TaskEvaluationResult
deriving DecidableEq

/-- The post-loop tail of `executeTaskOnWorker`: deduplicate and truncate
citations, apply the final-answer fallback, build the attempt, run the
deterministic guard and the judge, and finalize the task/execution status
from the verdict. -/
def finishEval (cfg : ExecCfg) (task : Tasks.GeneratedTask) (jenv : JudgeEnv)
    (st : LoopState) (stopReason : TaskStopReason) : ExecOutcome :=
  let finalCitations := (dedupe st.citations).take 16
  let finalAnswer :=
    if st.finalAnswer = "" then st.memory.stepSummaries.getLast?.getD "No valid answer generated."
    else st.finalAnswer
  let attempt := toTaskAttempt task finalAnswer st.stepOutputs finalCitations
    cfg.workerModelName st.totalInputTokens st.totalOutputTokens st.totalCost
  let deterministicGuards := DetChecks.evaluateDeterministicGuards task attempt
    st.stepOutputs.length (stopReasonStr stopReason)
  let evaluation := Judge.judgeTaskAttempt
    { task := task
      attempt := attempt
      tieBreakEnabled := cfg.tieBreakEnabled
      deterministicGuards := some deterministicGuards
      alignment := jenv.alignment
      baseRubric := jenv.baseRubric
      rerubric := jenv.rerubric }
  { status := if evaluation.pass then .passed else .failed
    stopReason := stopReason
    evaluation := some evaluation }

/-- The bounded iteration of `executeTaskOnWorker`, driven by the iteration
environments.  `fuel` counts the iterations the `for` loop may still run;
exits reproduce the source order: top-of-iteration token check, cancellation
check, cost-cap check, post-retrieve token check, post-plan token check,
post-act token check, then the end-of-iteration decision (post-reflect token
check, `act.done`, effective `shouldContinue`), with `step_limit` on loop
exhaustion. -/
def execLoop (cfg : ExecCfg) (task : Tasks.GeneratedTask)
    (chunks : List Retrieval.CorpusChunk) (jenv : JudgeEnv) :
    LoopState → ℕ → ℕ → List IterEnv → ExecOutcome
  | st, _, 0, _ => finishEval cfg task jenv st .step_limit
  | st, _, _ + 1, [] => finishEval cfg task jenv st .step_limit
  | st, stepIndex, fuel + 1, env :: envs =>
    if cfg.maxTokensPerTask ≤ st.totalInputTokens + st.totalOutputTokens then
      finishEval cfg task jenv st .token_limit
    else if env.canceled then
      { status := .skipped, stopReason := .cancelled, evaluation := none }
    else if cfg.hardCostCapUsd ≤ env.runCostEstimate then
      { status := .skipped, stopReason := .cost_limit, evaluation := none }
    else if cfg.maxTokensPerTask ≤ st.totalInputTokens + st.totalOutputTokens then
      finishEval cfg task jenv st .token_limit
    else if cfg.maxTokensPerTask ≤
        (stateAfterPlan cfg st env).totalInputTokens +
          (stateAfterPlan cfg st env).totalOutputTokens then
      finishEval cfg task jenv (stateAfterPlan cfg st env) .token_limit
    else if cfg.maxTokensPerTask ≤
        (stateAfterAct cfg st env).totalInputTokens +
          (stateAfterAct cfg st env).totalOutputTokens then
      finishEval cfg task jenv (stateAfterAct cfg st env) .token_limit
    else
      let stEnd := endOfIterationState cfg task chunks st stepIndex env
      if cfg.maxTokensPerTask ≤ stEnd.totalInputTokens + stEnd.totalOutputTokens then
        finishEval cfg task jenv stEnd .token_limit
      else if env.act.done then
        finishEval cfg task jenv stEnd .completed
      else if !effectiveShouldContinue task env.act env.reflect stepIndex then
        finishEval cfg task jenv stEnd
          (classifyNonContinueStop (effectiveStopReason task env.act env.reflect stepIndex))
      else
        execLoop cfg task chunks jenv stEnd (stepIndex + 1) fuel envs

/-- The loop locals at entry. -/
def initialLoopState (cfg : ExecCfg) (task : Tasks.GeneratedTask) : LoopState :=
  { totalInputTokens := 0
    totalOutputTokens := 0
    totalCost := 0
    finalAnswer := ""
    stepOutputs := []
    citations := []
    memory := initializeMemory task cfg.maxStepsPerTask cfg.maxTokensPerTask
      cfg.hardCostCapUsd }

/-- `executeTaskOnWorker` (non-throwing path): run the loop for at most
`maxStepsPerTask` iterations starting at `stepIndex = 1`. -/
def executeTaskOnWorker (cfg : ExecCfg) (task : Tasks.GeneratedTask)
    (chunks : List Retrieval.CorpusChunk) (jenv : JudgeEnv)
    (envs : List IterEnv) : ExecOutcome :=
  execLoop cfg task chunks jenv (initialLoopState cfg task) 1 cfg.maxStepsPerTask envs

/-- The claim's termination precedence at the after-reflect decision point,
first match wins: `token_limit` if the token budget is exhausted, else
`completed` if `act.done`, else `completed`/`error` (by the stop-reason
string) if the effective `shouldContinue` is false, else continue. -/
def claimStopDecision (maxTokens tokensAfterReflect : ℕ) (actDone : Bool)
    (shouldCont : Bool) (stopStr : Option String) : Option TaskStopReason :=
  if maxTokens ≤ tokensAfterReflect then some .token_limit
  else if actDone then some .completed
  else if shouldCont = false then some (classifyNonContinueStop stopStr)
  else none

end Orchestrator

/-- Cap a score by an optional per-criterion cap (claim-side helper). -/
def capWith (x : ℚ) : Option ℚ → ℚ
  | some cap => min x cap
  | none => x

/-- Concrete inputs used by the loop witnesses. -/
def witnessCfg : Orchestrator.ExecCfg :=
  { maxStepsPerTask := 2, maxTokensPerTask := 10, hardCostCapUsd := 1
    tieBreakEnabled := false, workerModelName := "m" }

def witnessTask : Tasks.GeneratedTask :=
  { taskId := "t1", name := "Authenticate", description := "Use the API key."
    category := "authentication", difficulty := "easy", expectedSignals := [] }

def witnessPlan : Orchestrator.PlanResult :=
  { planItems := ["step one"], rationale := "r"
    usage := { inputTokens := 1, outputTokens := 1 }, costEstimateUsd := 0 }

def witnessAct : Orchestrator.ActResult :=
  { answer := "answer", stepOutput := "out", citations := [], done := true
    doneReason := none, discoveredFacts := []
    usage := { inputTokens := 1, outputTokens := 1 }, costEstimateUsd := 0 }

def witnessReflect : Orchestrator.ReflectResult :=
  { shouldContinue := false, summary := "sum", planUpdates := [], confidence := 1
    stopReason := none, usage := { inputTokens := 1, outputTokens := 1 }
    costEstimateUsd := 0 }

/-- An iteration whose act call finishes the task. -/
def witnessEnvDone : Orchestrator.IterEnv :=
  { canceled := false, runCostEstimate := 0, plan := witnessPlan, act := witnessAct
    reflect := witnessReflect }

/-- An iteration observed while the run cost already exceeds the cap. -/
def witnessEnvCost : Orchestrator.IterEnv :=
  { canceled := false, runCostEstimate := 2, plan := witnessPlan, act := witnessAct
    reflect := witnessReflect }

def witnessJudgeEnv : Orchestrator.JudgeEnv :=
  { alignment := { isSupportedByEvidence := true, unsupportedClaims := [], notes := "" }
    baseRubric :=
      { scores := { completeness := 8, correctness := 8, groundedness := 8, actionability := 8 }
        rationale := "good", confidence := 1, suggestedFailureClass := "none" }
    rerubric :=
      { scores := { completeness := 8, correctness := 8, groundedness := 8, actionability := 8 }
        rationale := "good", confidence := 1, suggestedFailureClass := "none" } }

/-- C1.  For every judged attempt, the evaluation satisfies the pass rule:
`qualityPass` holds iff the final criterion average is at least 7,
`validityPass` holds iff the alignment result's `isSupportedByEvidence` is
true and the deterministic guard produced no pass-block reasons, and `pass`
holds iff both `qualityPass` and `validityPass` hold. -/
theorem C1_pass_rule (inp : Judge.JudgeInput) :
    (Judge.judgeTaskAttempt inp).qualityPass =
      decide (Judge.PASS_THRESHOLD ≤ (Judge.judgeTaskAttempt inp).criterionScores.average) ∧
    (Judge.judgeTaskAttempt inp).validityPass =
      (inp.alignment.isSupportedByEvidence &&
        (match inp.deterministicGuards with
          | some g => g.passBlockedReasons
          | none => []).isEmpty) ∧
    (Judge.judgeTaskAttempt inp).pass =
      ((Judge.judgeTaskAttempt inp).qualityPass && (Judge.judgeTaskAttempt inp).validityPass) := by
  obtain ⟨task, attempt, tie, guards, align, base, rer⟩ := inp
  obtain ⟨sup, uns, notes⟩ := align
  refine ⟨rfl, ?_, rfl⟩
  cases guards with
  | none => cases sup <;> simp [Judge.judgeTaskAttempt]
  | some g =>
    obtain ⟨gc, cc, kc, ac, reasons, checks⟩ := g
    cases sup <;> cases reasons <;> simp [Judge.judgeTaskAttempt]

/-- C5.  Score post-processing applies exactly these caps in order: with no
citations groundedness is capped at 4; with fewer than 2 steps actionability
is capped at 6; with unsupported claims correctness is capped at 6 and
groundedness at 5; then the deterministic guard's per-criterion caps apply;
and the resulting average is the arithmetic mean of the four capped
criteria. -/
theorem C5_guardrail_caps (raw : Scoring.RawScores) (attempt : Agent.AgentTaskAttempt)
    (unsupported : List String) (guards : Option DetChecks.DeterministicGuards) :
    Judge.applyGuardrails raw attempt unsupported guards =
      { completeness := capWith raw.completeness (guards.bind (fun g => g.completenessCap))
        correctness := capWith
          (if unsupported ≠ [] then min raw.correctness 6 else raw.correctness)
          (guards.bind (fun g => g.correctnessCap))
        groundedness := capWith
          (if unsupported ≠ [] then
            min (if attempt.citations.length = 0 then min raw.groundedness 4
              else raw.groundedness) 5
          else if attempt.citations.length = 0 then min raw.groundedness 4
          else raw.groundedness)
          (guards.bind (fun g => g.groundednessCap))
        actionability := capWith
          (if attempt.steps.length < 2 then min raw.actionability 6 else raw.actionability)
          (guards.bind (fun g => g.actionabilityCap))
        average :=
          (capWith raw.completeness (guards.bind (fun g => g.completenessCap)) +
            capWith (if unsupported ≠ [] then min raw.correctness 6 else raw.correctness)
              (guards.bind (fun g => g.correctnessCap)) +
            capWith
              (if unsupported ≠ [] then
                min (if attempt.citations.length = 0 then min raw.groundedness 4
                  else raw.groundedness) 5
              else if attempt.citations.length = 0 then min raw.groundedness 4
              else raw.groundedness)
              (guards.bind (fun g => g.groundednessCap)) +
            capWith
              (if attempt.steps.length < 2 then min raw.actionability 6 else raw.actionability)
              (guards.bind (fun g => g.actionabilityCap))) / 4 } := by
  cases unsupported <;> cases guards <;>
    simp [Judge.applyGuardrails, Judge.averageScores, capWith]

/-- C7 (at the failing input): `aggregateRunScores` on the empty evaluation
list returns the zeroed record it actually builds — which carries only
`totalTasks`, `passedTasks`, `failedTasks`, `passRate`, `averageScore` and
`failureBreakdown`, not the four quality/validity fields its own declared
result type requires; the pass count equals the number of passing
evaluations. -/
theorem C7_aggregate_shape :
    Scoring.aggregateRunScores [] =
      { totalTasks := 0, passedTasks := 0, failedTasks := 0, passRate := 0
        averageScore := 0, failureBreakdown := [] } ∧
    ∀ evaluations, (Scoring.aggregateRunScores evaluations).passedTasks =
      (evaluations.filter (fun e => e.pass)).length := by
  refine ⟨rfl, ?_⟩
  intro evaluations
  cases evaluations <;> rfl

/-- C8 counterexample.  With no usable suggestion, rationale `"ambiguous"`
and groundedness 4, the classifier returns `missing_content` (the score rule
runs before the ambiguity heuristic), while the claimed order returns
`ambiguous_instructions`. -/
theorem C8_counterexample :
    Scoring.classifyFailureClass
        { completeness := 6, correctness := 6, groundedness := 4, actionability := 6
          average := 11 / 2 } "ambiguous" (some "none") = .missing_content ∧
    Scoring.claimedClassify
        { completeness := 6, correctness := 6, groundedness := 4, actionability := 6
          average := 11 / 2 } "ambiguous" (some "none") = .ambiguous_instructions ∧
    Scoring.classifyFailureClass
        { completeness := 6, correctness := 6, groundedness := 4, actionability := 6
          average := 11 / 2 } "ambiguous" (some "none") ≠
      Scoring.claimedClassify
        { completeness := 6, correctness := 6, groundedness := 4, actionability := 6
          average := 11 / 2 } "ambiguous" (some "none") := by
  refine ⟨by decide, by decide, by decide⟩

/-- C8 (amended).  The failure class is chosen in the code's order: the
suggested class when valid; the outdated and broken-link rationale
heuristics; then the score rules (`groundedness < 5`, then
`actionability < 6 ∧ completeness < 6`); then the ambiguity and
missing-example heuristics; else `poor_structure`. -/
theorem C8_classifier_order (scores : Scoring.CriterionScores) (rationale : String)
    (suggested : Option String) :
    Scoring.classifyFailureClass scores rationale suggested =
      Scoring.amendedClassify scores rationale suggested := by
  unfold Scoring.classifyFailureClass Scoring.amendedClassify
  cases hs : suggested.bind
      (fun s => if s = "" then none else Scoring.parseFailureClass s) with
  | some fc => rfl
  | none =>
    simp only []
    cases hg : decide (scores.groundedness < 5) <;>
      cases ha : decide (scores.actionability < 6) <;>
        cases hc : decide (scores.completeness < 6) <;>
          split_ifs <;>
            simp_all [Scoring.firstHit, decide_eq_true_eq, decide_eq_false_iff_not]

/-- C10.  With an empty `expectedSignals` list, both coverage helpers report
ratio 1 with no matched and no missed signals, the
`expected_signal_coverage` deterministic check passes vacuously (and sets no
completeness cap), and the reflect-phase override reduces to the
non-coverage disjuncts — coverage never forces continuation. -/
theorem C10_empty_signals (text tid nm ds ct df : String)
    (attempt : Agent.AgentTaskAttempt) (stepCount : ℕ) (stopReason : String)
    (act : Orchestrator.ActResult) (stepIndex : ℕ) :
    Orchestrator.expectedSignalCoverage [] text =
      { matched := [], missed := [], ratio := 1 } ∧
    DetChecks.signalCoverage [] text = { matched := [], missed := [], ratio := 1 } ∧
    (({ name := "expected_signal_coverage", passed := true, scoreDelta := 0
        details := .coverage [] [] 1 } : DetChecks.DeterministicCheck) ∈
      (DetChecks.evaluateDeterministicGuards
        { taskId := tid, name := nm, description := ds, category := ct, difficulty := df
          expectedSignals := [] } attempt stepCount stopReason).checks ∧
      (DetChecks.evaluateDeterministicGuards
        { taskId := tid, name := nm, description := ds, category := ct, difficulty := df
          expectedSignals := [] } attempt stepCount stopReason).completenessCap = none) ∧
    Orchestrator.shouldForceContinue
        { taskId := tid, name := nm, description := ds, category := ct, difficulty := df
          expectedSignals := [] } act stepIndex =
      (!act.done && (decide (stepIndex < 2) || act.citations.isEmpty ||
        Orchestrator.looksLikeMissingContent (Orchestrator.actCombinedText act))) := by
  refine ⟨rfl, rfl, ⟨?_, ?_⟩, ?_⟩
  · simp [DetChecks.evaluateDeterministicGuards, DetChecks.signalCoverage,
      show ((45 : ℚ) / 100 ≤ 1) by norm_num]
  · simp [DetChecks.evaluateDeterministicGuards, DetChecks.signalCoverage,
      show ((45 : ℚ) / 100 ≤ 1) by norm_num]
  · simp [Orchestrator.shouldForceContinue, Orchestrator.expectedSignalCoverage,
      show ¬((1 : ℚ) < 3 / 4) by norm_num]

/-- `foldl` counting equals the length of the filtered list. -/
theorem foldl_count_eq_length_filter {α : Type} (p : α → Bool) (l : List α) (n : ℕ) :
    l.foldl (fun acc t => if p t then acc + 1 else acc) n = n + (l.filter p).length := by
  induction l generalizing n with
  | nil => simp
  | cons a t ih =>
    cases hp : p a <;> simp [List.filter, hp, ih, Nat.add_assoc, Nat.add_comm 1]

/-- C6 counterexample.  On the single chunk `"cat cat cat"` and query
`"cat"`, the code counts each of the three occurrences of `cat`
(overlap 3, score `3/√3`), while the claimed set-intersection cardinality
is 1 (score `1/√3`); the retrieval results denote different scores. -/
theorem C6_counterexample :
    Retrieval.retrieveTopChunksWithScores
        [{ sourceUrl := "u", artifactType := "doc", text := "cat cat cat"
           snippetHash := "h" }] "cat" 8 =
      [{ chunk := { sourceUrl := "u", artifactType := "doc", text := "cat cat cat"
                    snippetHash := "h" }, overlap := 3, tokenCount := 3 }] ∧
    Retrieval.claimedRetrieveTopChunks
        [{ sourceUrl := "u", artifactType := "doc", text := "cat cat cat"
           snippetHash := "h" }] "cat" 8 =
      [{ chunk := { sourceUrl := "u", artifactType := "doc", text := "cat cat cat"
                    snippetHash := "h" }, overlap := 1, tokenCount := 3 }] ∧
    Retrieval.scoreSqOf
        { chunk := { sourceUrl := "u", artifactType := "doc", text := "cat cat cat"
                     snippetHash := "h" }, overlap := 3, tokenCount := 3 } = 3 ∧
    Retrieval.claimedScoreSqOf
        { chunk := { sourceUrl := "u", artifactType := "doc", text := "cat cat cat"
                     snippetHash := "h" }, overlap := 1, tokenCount := 3 } = 1 / 3 ∧
    ((3 : ℚ) ≠ 1 / 3) := by
  refine ⟨by decide, by decide, ?_, ?_, by norm_num⟩
  · unfold Retrieval.scoreSqOf
    norm_num
  · unfold Retrieval.claimedScoreSqOf
    norm_num

/-- C6 (amended).  Retrieval tokenizes by lowercasing, stripping
non-alphanumeric characters and dropping tokens shorter than 3 characters,
scores each chunk as the number of chunk-token occurrences (with
multiplicity) lying in the query token set divided by
`max(1, √|chunkTokens|)`, breaks score ties by comparing the concatenated
key `sourceUrl ++ "::" ++ snippetHash`, and returns the top-K chunks with
their scores. -/
theorem C6_retrieval_amended (chunks : List Retrieval.CorpusChunk) (query : String)
    (topK : ℕ) :
    Retrieval.retrieveTopChunksWithScores chunks query topK =
      Retrieval.amendedRetrieveTopChunks chunks query topK := by
  have hscore : Retrieval.scoreChunk (Retrieval.tokenize query) =
      Retrieval.amendedScoreChunk (Retrieval.tokenize query) := by
    funext chunk
    unfold Retrieval.scoreChunk Retrieval.amendedScoreChunk
    have h := foldl_count_eq_length_filter
      (fun t => (Retrieval.tokenize query).contains t) (Retrieval.tokenize chunk.text) 0
    simp only [Nat.zero_add] at h
    simp only [h]
  unfold Retrieval.retrieveTopChunksWithScores Retrieval.amendedRetrieveTopChunks
  rw [hscore]

/-- Any run-status operation keeps a terminal status terminal. -/
theorem applyRunOp_keeps_terminal (row : RunService.RunRow) (op : RunService.RunOp)
    (h : RunService.isTerminalStatus row.status = true) :
    RunService.isTerminalStatus (RunService.applyRunOp row op).status = true := by
  cases op with
  | update status now =>
    show RunService.isTerminalStatus (RunService.updateRunStatus row status now).status = true
    unfold RunService.updateRunStatus
    cases hs : RunService.isTerminalStatus status <;> simp [h, hs]
  | finalize status totals now =>
    cases status <;> simp [RunService.applyRunOp, RunService.finalizeRun,
      RunService.FinalStatus.toRunStatus, RunService.isTerminalStatus]
  | cancel now =>
    show RunService.isTerminalStatus (RunService.updateRunStatus row .canceled now).status = true
    unfold RunService.updateRunStatus
    simp [h, RunService.isTerminalStatus]

/-- C4.  Once `run.status` is terminal (`completed`, `failed`, `canceled`),
no subsequent operation sets it back to a non-terminal value: a requested
transition to a non-terminal status is a no-op on a terminal run, the
finalizer only writes terminal statuses, and every sequence of
`updateRunStatus` / `finalizeRun` / `cancelRun` operations leaves the
status terminal. -/
theorem C4_terminal_sticky (row : RunService.RunRow)
    (h : RunService.isTerminalStatus row.status = true) :
    (∀ status now, RunService.isTerminalStatus status = false →
      RunService.updateRunStatus row status now = row) ∧
    (∀ row' status totals now,
      RunService.isTerminalStatus (RunService.finalizeRun row' status totals now).status = true) ∧
    (∀ ops : List RunService.RunOp,
      RunService.isTerminalStatus ((ops.foldl RunService.applyRunOp row).status) = true) := by
  refine ⟨?_, ?_, ?_⟩
  · intro status now hn
    unfold RunService.updateRunStatus
    simp [h, hn]
  · intro row' status totals now
    cases status <;> simp [RunService.finalizeRun, RunService.FinalStatus.toRunStatus,
      RunService.isTerminalStatus]
  · intro ops
    induction ops generalizing row with
    | nil => exact h
    | cons op rest ih =>
      exact ih (RunService.applyRunOp row op) (applyRunOp_keeps_terminal row op h)

/-- C4 witness: a completed run stays untouched by a requested transition
back to `running`, and any operation sequence keeps it terminal. -/
theorem C4_terminal_sticky_witness :
    RunService.isTerminalStatus
      ({ status := .completed, endedAt := some 5, totals := none } :
        RunService.RunRow).status = true ∧
    RunService.updateRunStatus
      { status := .completed, endedAt := some 5, totals := none } .running 9 =
      { status := .completed, endedAt := some 5, totals := none } ∧
    RunService.isTerminalStatus
      (([RunService.RunOp.update .running 9, RunService.RunOp.cancel 10].foldl
        RunService.applyRunOp
        { status := .completed, endedAt := some 5, totals := none }).status) = true :=
  ⟨by decide,
    (C4_terminal_sticky { status := .completed, endedAt := some 5, totals := none }
      (by decide)).1 .running 9 (by decide),
    (C4_terminal_sticky { status := .completed, endedAt := some 5, totals := none }
      (by decide)).2.2 [RunService.RunOp.update .running 9, RunService.RunOp.cancel 10]⟩

/-- Reaching an iteration whose top-of-iteration checks see tokens below the
limit, no cancellation and the cost cap reached exits immediately with a
skipped, unevaluated `cost_limit` outcome. -/
theorem execLoop_cost_exit (cfg : Orchestrator.ExecCfg) (task : Tasks.GeneratedTask)
    (chunks : List Retrieval.CorpusChunk) (jenv : Orchestrator.JudgeEnv)
    (st : Orchestrator.LoopState) (stepIndex fuel : ℕ) (env : Orchestrator.IterEnv)
    (envs : List Orchestrator.IterEnv)
    (h1 : st.totalInputTokens + st.totalOutputTokens < cfg.maxTokensPerTask)
    (h2 : env.canceled = false)
    (h3 : cfg.hardCostCapUsd ≤ env.runCostEstimate) :
    Orchestrator.execLoop cfg task chunks jenv st stepIndex (fuel + 1) (env :: envs) =
      { status := .skipped, stopReason := .cost_limit, evaluation := none } := by
  simp only [Orchestrator.execLoop]
  rw [if_neg (Nat.not_le.mpr h1), if_neg (by simp [h2]), if_pos h3]

/-- C3.  Whenever an execution observes, at the top of an iteration (tokens
below the limit, run not canceled), that the run's cost estimate has reached
`hardCostCapUsd`, the loop exits at once: the task is marked `skipped`, the
stop reason is `cost_limit`, and no `TaskEvaluation` is produced — in
particular a whole execution whose first iteration observes the cap yields
the same unevaluated outcome. -/
theorem C3_cost_cap_skips (cfg : Orchestrator.ExecCfg) (task : Tasks.GeneratedTask)
    (chunks : List Retrieval.CorpusChunk) (jenv : Orchestrator.JudgeEnv)
    (st : Orchestrator.LoopState) (stepIndex fuel : ℕ) (env : Orchestrator.IterEnv)
    (envs : List Orchestrator.IterEnv)
    (h1 : st.totalInputTokens + st.totalOutputTokens < cfg.maxTokensPerTask)
    (h2 : env.canceled = false)
    (h3 : cfg.hardCostCapUsd ≤ env.runCostEstimate) :
    Orchestrator.execLoop cfg task chunks jenv st stepIndex (fuel + 1) (env :: envs) =
      { status := .skipped, stopReason := .cost_limit, evaluation := none } ∧
    (cfg.maxStepsPerTask = fuel + 1 →
      Orchestrator.executeTaskOnWorker cfg task chunks jenv (env :: envs) =
        { status := .skipped, stopReason := .cost_limit, evaluation := none }) := by
  constructor
  · exact execLoop_cost_exit cfg task chunks jenv st stepIndex fuel env envs h1 h2 h3
  · intro hsteps
    unfold Orchestrator.executeTaskOnWorker
    rw [hsteps]
    exact execLoop_cost_exit cfg task chunks jenv
      (Orchestrator.initialLoopState cfg task) 1 fuel env envs
      (by simp only [Orchestrator.initialLoopState]; omega) h2 h3

/-- C2.  At every iteration that reaches the after-reflect decision point
(top-of-iteration tokens below the limit, not canceled, cost below the cap,
post-plan and post-act tokens below the limit), the loop's outcome follows
the claimed precedence, first match wins: `token_limit` when the token
budget is exhausted after reflect, else `completed` when `act.done`, else
`completed`/`error` (by whether the stop-reason string contains "error")
when the effective `shouldContinue` is false, else the next iteration; a
loop that exhausts its iteration budget records `step_limit`, and the
recorded stop reason is exactly the one the decision selects. -/
theorem C2_stop_precedence (cfg : Orchestrator.ExecCfg) (task : Tasks.GeneratedTask)
    (chunks : List Retrieval.CorpusChunk) (jenv : Orchestrator.JudgeEnv)
    (st : Orchestrator.LoopState) (stepIndex fuel : ℕ) (env : Orchestrator.IterEnv)
    (envs : List Orchestrator.IterEnv)
    (h1 : st.totalInputTokens + st.totalOutputTokens < cfg.maxTokensPerTask)
    (h2 : env.canceled = false)
    (h3 : env.runCostEstimate < cfg.hardCostCapUsd)
    (h4 : (Orchestrator.stateAfterPlan cfg st env).totalInputTokens +
      (Orchestrator.stateAfterPlan cfg st env).totalOutputTokens < cfg.maxTokensPerTask)
    (h5 : (Orchestrator.stateAfterAct cfg st env).totalInputTokens +
      (Orchestrator.stateAfterAct cfg st env).totalOutputTokens < cfg.maxTokensPerTask) :
    (Orchestrator.execLoop cfg task chunks jenv st stepIndex (fuel + 1) (env :: envs) =
      match Orchestrator.claimStopDecision cfg.maxTokensPerTask
          ((Orchestrator.endOfIterationState cfg task chunks st stepIndex env).totalInputTokens +
            (Orchestrator.endOfIterationState cfg task chunks st stepIndex env).totalOutputTokens)
          env.act.done
          (Orchestrator.effectiveShouldContinue task env.act env.reflect stepIndex)
          (Orchestrator.effectiveStopReason task env.act env.reflect stepIndex) with
      | some r => Orchestrator.finishEval cfg task jenv
          (Orchestrator.endOfIterationState cfg task chunks st stepIndex env) r
      | none => Orchestrator.execLoop cfg task chunks jenv
          (Orchestrator.endOfIterationState cfg task chunks st stepIndex env)
          (stepIndex + 1) fuel envs) ∧
    (∀ (st' : Orchestrator.LoopState) (idx : ℕ) (envs' : List Orchestrator.IterEnv),
      Orchestrator.execLoop cfg task chunks jenv st' idx 0 envs' =
        Orchestrator.finishEval cfg task jenv st' .step_limit) ∧
    (∀ (st' : Orchestrator.LoopState) (r : Orchestrator.TaskStopReason),
      (Orchestrator.finishEval cfg task jenv st' r).stopReason = r) := by
  refine ⟨?_, fun st' idx envs' => rfl, fun st' r => rfl⟩
  simp only [Orchestrator.execLoop]
  rw [if_neg (Nat.not_le.mpr h1), if_neg (by simp [h2]), if_neg (not_le.mpr h3),
    if_neg (Nat.not_le.mpr h1), if_neg (Nat.not_le.mpr h4), if_neg (Nat.not_le.mpr h5)]
  by_cases hT : cfg.maxTokensPerTask ≤
      (Orchestrator.endOfIterationState cfg task chunks st stepIndex env).totalInputTokens +
        (Orchestrator.endOfIterationState cfg task chunks st stepIndex env).totalOutputTokens
  · simp [Orchestrator.claimStopDecision, hT]
  · cases hD : env.act.done with
    | true => simp [Orchestrator.claimStopDecision, hT, hD]
    | false =>
      cases hE : Orchestrator.effectiveShouldContinue task env.act env.reflect stepIndex with
      | true => simp [Orchestrator.claimStopDecision, hT, hD, hE]
      | false => simp [Orchestrator.claimStopDecision, hT, hD, hE]

/-- C3 witness: a first iteration that observes the cost cap exits the
whole execution skipped with `cost_limit` and no evaluation. -/
theorem C3_cost_cap_skips_witness :
    ((Orchestrator.initialLoopState witnessCfg witnessTask).totalInputTokens +
      (Orchestrator.initialLoopState witnessCfg witnessTask).totalOutputTokens <
        witnessCfg.maxTokensPerTask) ∧
    witnessEnvCost.canceled = false ∧
    witnessCfg.hardCostCapUsd ≤ witnessEnvCost.runCostEstimate ∧
    Orchestrator.executeTaskOnWorker witnessCfg witnessTask [] witnessJudgeEnv
      [witnessEnvCost] =
      { status := .skipped, stopReason := .cost_limit, evaluation := none } :=
  ⟨by decide, rfl, by decide,
    (C3_cost_cap_skips witnessCfg witnessTask [] witnessJudgeEnv
      (Orchestrator.initialLoopState witnessCfg witnessTask) 1 1 witnessEnvCost []
      (by decide) rfl (by decide)).2 rfl⟩

/-- C2 witness: a concrete iteration reaching the after-reflect decision
point satisfies the hypotheses and follows the claimed precedence. -/
theorem C2_stop_precedence_witness :
    ((Orchestrator.initialLoopState witnessCfg witnessTask).totalInputTokens +
      (Orchestrator.initialLoopState witnessCfg witnessTask).totalOutputTokens <
        witnessCfg.maxTokensPerTask) ∧
    witnessEnvDone.canceled = false ∧
    witnessEnvDone.runCostEstimate < witnessCfg.hardCostCapUsd ∧
    ((Orchestrator.stateAfterPlan witnessCfg
        (Orchestrator.initialLoopState witnessCfg witnessTask) witnessEnvDone).totalInputTokens +
      (Orchestrator.stateAfterPlan witnessCfg
        (Orchestrator.initialLoopState witnessCfg witnessTask) witnessEnvDone).totalOutputTokens <
        witnessCfg.maxTokensPerTask) ∧
    ((Orchestrator.stateAfterAct witnessCfg
        (Orchestrator.initialLoopState witnessCfg witnessTask) witnessEnvDone).totalInputTokens +
      (Orchestrator.stateAfterAct witnessCfg
        (Orchestrator.initialLoopState witnessCfg witnessTask) witnessEnvDone).totalOutputTokens <
        witnessCfg.maxTokensPerTask) ∧
    (Orchestrator.execLoop witnessCfg witnessTask [] witnessJudgeEnv
        (Orchestrator.initialLoopState witnessCfg witnessTask) 1 (1 + 1) [witnessEnvDone] =
      match Orchestrator.claimStopDecision witnessCfg.maxTokensPerTask
          ((Orchestrator.endOfIterationState witnessCfg witnessTask []
              (Orchestrator.initialLoopState witnessCfg witnessTask) 1
              witnessEnvDone).totalInputTokens +
            (Orchestrator.endOfIterationState witnessCfg witnessTask []
              (Orchestrator.initialLoopState witnessCfg witnessTask) 1
              witnessEnvDone).totalOutputTokens)
          witnessEnvDone.act.done
          (Orchestrator.effectiveShouldContinue witnessTask witnessEnvDone.act
            witnessEnvDone.reflect 1)
          (Orchestrator.effectiveStopReason witnessTask witnessEnvDone.act
            witnessEnvDone.reflect 1) with
      | some r => Orchestrator.finishEval witnessCfg witnessTask witnessJudgeEnv
          (Orchestrator.endOfIterationState witnessCfg witnessTask []
            (Orchestrator.initialLoopState witnessCfg witnessTask) 1 witnessEnvDone) r
      | none => Orchestrator.execLoop witnessCfg witnessTask [] witnessJudgeEnv
          (Orchestrator.endOfIterationState witnessCfg witnessTask []
            (Orchestrator.initialLoopState witnessCfg witnessTask) 1 witnessEnvDone)
          (1 + 1) 1 []) :=
  ⟨by decide, rfl, by decide, by decide, by decide,
    (C2_stop_precedence witnessCfg witnessTask [] witnessJudgeEnv
      (Orchestrator.initialLoopState witnessCfg witnessTask) 1 1 witnessEnvDone []
      (by decide) rfl (by decide) (by decide) (by decide)).1⟩

/-- The initial accumulator is below a max-fold. -/
theorem foldl_max_init_le (f : Events.EventRow → ℕ) (l : List Events.EventRow) (a : ℕ) :
    a ≤ l.foldl (fun m r => max m (f r)) a := by
  induction l generalizing a with
  | nil => simp
  | cons x xs ih => exact le_trans (le_max_left a (f x)) (ih (max a (f x)))

/-- Every member is below a max-fold. -/
theorem foldl_max_mem_le (f : Events.EventRow → ℕ) (l : List Events.EventRow) (a : ℕ)
    (r : Events.EventRow) (h : r ∈ l) :
    f r ≤ l.foldl (fun m x => max m (f x)) a := by
  induction l generalizing a with
  | nil => cases h
  | cons x xs ih =>
    simp only [List.foldl]
    rcases List.mem_cons.mp h with rfl | hmem
    · exact le_trans (le_max_right a (f r)) (foldl_max_init_le f xs (max a (f r)))
    · exact ih (max a (f x)) hmem

/-- A max-fold is bounded by any bound on the initial accumulator and all
members. -/
theorem foldl_max_le_of (f : Events.EventRow → ℕ) (b : ℕ) :
    ∀ (l : List Events.EventRow) (a : ℕ), a ≤ b → (∀ x ∈ l, f x ≤ b) →
      l.foldl (fun m x => max m (f x)) a ≤ b := by
  intro l
  induction l with
  | nil => intro a ha _; simpa using ha
  | cons x xs ih =>
    intro a ha hl
    simp only [List.foldl]
    exact ih (max a (f x)) (max_le ha (hl x (List.mem_cons_self x xs)))
      (fun y hy => hl y (List.mem_cons_of_mem x hy))

/-- `appendRunEvent` preserves the store invariant. -/
theorem storeInv_append (store : List Events.EventRow) (rid et pj : String) (now : ℕ)
    (h : Events.StoreInv store) :
    Events.StoreInv (Events.appendRunEvent store rid et pj now).1 := by
  obtain ⟨hid, hseq, hsle⟩ := h
  unfold Events.appendRunEvent Events.StoreInv
  simp only []
  refine ⟨?_, ?_, ?_⟩
  · rw [List.pairwise_append]
    refine ⟨hid, List.pairwise_singleton _ _, ?_⟩
    intro a ha b hb
    simp only [List.mem_singleton] at hb
    subst hb
    exact Nat.lt_succ_of_le (foldl_max_mem_le (fun r => r.id) store 0 a ha)
  · rw [List.pairwise_append]
    refine ⟨hseq, List.pairwise_singleton _ _, ?_⟩
    intro a ha b hb hrun
    simp only [List.mem_singleton] at hb
    subst hb
    simp only [] at hrun
    have hafilter : a ∈ store.filter (fun r => r.runId == rid) := by
      rw [List.mem_filter]
      exact ⟨ha, by simp [hrun]⟩
    exact Nat.lt_succ_of_le
      (foldl_max_mem_le (fun r => r.seq) (store.filter (fun r => r.runId == rid)) 0 a hafilter)
  · intro r hr
    rcases List.mem_append.mp hr with hmem | hnew
    · exact hsle r hmem
    · simp only [List.mem_singleton] at hnew
      subst hnew
      simp only []
      have hbound : (store.filter (fun r => r.runId == rid)).foldl
          (fun m r => max m r.seq) 0 ≤ store.foldl (fun m r => max m r.id) 0 := by
        refine foldl_max_le_of (fun r => r.seq) _ _ 0 (Nat.zero_le _) ?_
        intro x hx
        have hxs : x ∈ store := (List.mem_filter.mp hx).1
        exact le_trans (hsle x hxs) (foldl_max_mem_le (fun r => r.id) store 0 x hxs)
      exact Nat.succ_le_succ hbound

/-- Every store built by appends satisfies the invariant. -/
theorem storeInv_mkStore (ops : List Events.AppendOp) :
    Events.StoreInv (Events.mkStore ops) := by
  have hfold : ∀ (rest : List Events.AppendOp) (store : List Events.EventRow),
      Events.StoreInv store →
      Events.StoreInv (rest.foldl
        (fun st op => (Events.appendRunEvent st op.runId op.eventType op.payloadJson op.now).1)
        store) := by
    intro rest
    induction rest with
    | nil => intro store h; exact h
    | cons op tail ih =>
      intro store h
      exact ih _ (storeInv_append store op.runId op.eventType op.payloadJson op.now h)
  exact hfold ops [] ⟨List.Pairwise.nil, List.Pairwise.nil, by simp⟩

/-- C9 counterexample.  With appends to run `"a"`, run `"b"`, then run
`"a"`, run `"a"`'s rows are `(id 1, seq 1)` and `(id 3, seq 2)`; reading
run `"a"` after cursor 2 returns nothing — the filter compares the cursor
with `seq` — while a reader cursoring on `id`, as the claim states, would
return the `id 3` event. -/
theorem C9_counterexample :
    Events.getRunEventsAfter
        (Events.mkStore
          [{ runId := "a", eventType := "e", payloadJson := "p", now := 0 },
           { runId := "b", eventType := "e", payloadJson := "p", now := 0 },
           { runId := "a", eventType := "e", payloadJson := "p", now := 0 }]) "a" 2 100 = [] ∧
    Events.claimedReadAfterById
        (Events.mkStore
          [{ runId := "a", eventType := "e", payloadJson := "p", now := 0 },
           { runId := "b", eventType := "e", payloadJson := "p", now := 0 },
           { runId := "a", eventType := "e", payloadJson := "p", now := 0 }]) "a" 2 100 =
      [{ id := 3, runId := "a", seq := 2, eventType := "e", payloadJson := "p"
         createdAt := 0 }] ∧
    Events.getRunEventsAfter
        (Events.mkStore
          [{ runId := "a", eventType := "e", payloadJson := "p", now := 0 },
           { runId := "b", eventType := "e", payloadJson := "p", now := 0 },
           { runId := "a", eventType := "e", payloadJson := "p", now := 0 }]) "a" 2 100 ≠
      Events.claimedReadAfterById
        (Events.mkStore
          [{ runId := "a", eventType := "e", payloadJson := "p", now := 0 },
           { runId := "b", eventType := "e", payloadJson := "p", now := 0 },
           { runId := "a", eventType := "e", payloadJson := "p", now := 0 }]) "a" 2 100 :=
  ⟨by decide, by decide, by decide⟩

/-- C9 (amended).  On any store built by appends, `getRunEventsAfter`
cursors on the per-run `seq`: it returns events whose `seq` values — and,
because per-run insertion order aligns `seq` and `id` and `seq ≤ id`, whose
`id` values — are strictly increasing, and no returned event has `seq` or
`id` at or below the cursor. -/
theorem C9_read_cursors_on_seq (ops : List Events.AppendOp) (rid : String)
    (afterSeq limit : ℕ) :
    (Events.getRunEventsAfter (Events.mkStore ops) rid afterSeq limit).Pairwise
      (fun a b => a.seq < b.seq) ∧
    (Events.getRunEventsAfter (Events.mkStore ops) rid afterSeq limit).Pairwise
      (fun a b => a.id < b.id) ∧
    ∀ r ∈ Events.getRunEventsAfter (Events.mkStore ops) rid afterSeq limit,
      afterSeq < r.seq ∧ afterSeq < r.id := by
  obtain ⟨hid, hseq, hsle⟩ := storeInv_mkStore ops
  have hflmem : ∀ r ∈ (Events.mkStore ops).filter
      (fun r => r.runId == rid && decide (afterSeq < r.seq)),
      r ∈ Events.mkStore ops ∧ r.runId = rid ∧ afterSeq < r.seq := by
    intro r hr
    have hm := List.mem_filter.mp hr
    refine ⟨hm.1, ?_, ?_⟩
    · have := hm.2
      simp only [Bool.and_eq_true, beq_iff_eq, decide_eq_true_eq] at this
      exact this.1
    · have := hm.2
      simp only [Bool.and_eq_true, beq_iff_eq, decide_eq_true_eq] at this
      exact this.2
  have hid' : ((Events.mkStore ops).filter
      (fun r => r.runId == rid && decide (afterSeq < r.seq))).Pairwise
      (fun a b => a.id < b.id) := hid.filter _
  have hseq' : ((Events.mkStore ops).filter
      (fun r => r.runId == rid && decide (afterSeq < r.seq))).Pairwise
      (fun a b => a.seq < b.seq) := by
    refine (hseq.filter _).imp_of_mem ?_
    intro a b ha hb hrel
    exact hrel ((hflmem a ha).2.1.trans (hflmem b hb).2.1.symm)
  have hsorted : List.Sorted Events.seqLe ((Events.mkStore ops).filter
      (fun r => r.runId == rid && decide (afterSeq < r.seq))) :=
    hseq'.imp (fun h => le_of_lt h)
  have hout : Events.getRunEventsAfter (Events.mkStore ops) rid afterSeq limit =
      ((Events.mkStore ops).filter
        (fun r => r.runId == rid && decide (afterSeq < r.seq))).take limit := by
    unfold Events.getRunEventsAfter
    rw [List.Sorted.insertionSort_eq hsorted]
  rw [hout]
  have htake := List.take_sublist limit ((Events.mkStore ops).filter
    (fun r => r.runId == rid && decide (afterSeq < r.seq)))
  refine ⟨List.Pairwise.sublist htake hseq', List.Pairwise.sublist htake hid', ?_⟩
  intro r hr
  have hrfl := htake.subset hr
  have hm := hflmem r hrfl
  exact ⟨hm.2.2, lt_of_lt_of_le hm.2.2 (hsle r hm.1)⟩
